import Mathlib

set_option linter.unusedVariables false

/-! Shallow embedding of `achievement_monitor.py` (class `AchievementMonitor`):
the blacklist-gated player-achievement fetch (`get_player_achievements`),
the durable unlock-state reconciliation (`check_new_achievements`), the
details resolver with its degraded path (`get_achievement_details`), and
the explicit reset (`clear_game_achievements`).

Network interaction is modelled by response oracles: the i-th request of a
given kind receives response `env i`.  Durable JSON files are modelled by
their contents after a successful write (the Python code swallows local
I/O errors; we model the error-free I/O run).  Python `set` values are
modelled as `Finset String`; the unlock-state table stores Python lists
`list(current)` that are always read back through `set(...)`, so table
values are represented by their set image. -/

/-- One achievement entry of the player-achievements payload
(`data["playerstats"]["achievements"]`): required key `apiname`, optional
`name`, `achieved` defaulting to 0 (`ach.get("achieved", 0)`), and
`description` with `""` for an absent key (matching Python truthiness of
`ach.get("description")`). -/
structure AchEntry where
  apiname : String
  name : Option String
  achieved : Nat
  description : String
deriving DecidableEq

/-- Response to one `GetPlayerAchievements` request.  `ok none` models an
HTTP 200 whose JSON lacks the `playerstats`/`achievements` keys;
`ok (some l)` a 200 payload with achievement list `l`; `denied` HTTP 401;
`httpErr` any other status; `exn` a raised exception (timeout, connection
error, or a `response.json()` parse failure, all caught by the
`except Exception` handler of the attempt loop). -/
inductive Resp where
  | ok (payload : Option (List AchEntry))
  | denied
  | httpErr
  | exn
deriving DecidableEq

/-- The `lang_list` of `get_player_achievements`. -/
def lang_list : List String := ["schinese", "english", "en"]

/-- `{ach["apiname"] for ach in achievements if ach.get("achieved", 0) == 1}`. -/
def unlockedOf (achs : List AchEntry) : Finset String :=
  ((achs.filter (fun a => a.achieved == 1)).map (fun a => a.apiname)).toFinset

/-- `any(ach.get("description") for ach in achievements)`. -/
def hasDesc (achs : List AchEntry) : Bool :=
  achs.any (fun a => a.description != "")

/-- Outcome of the nested language/attempt loop of `get_player_achievements`. -/
inductive FetchOutcome where
  | accepted (s : Finset String)
  | denied
  | exhausted
deriving DecidableEq

/-- The inner `for attempt in range(3)` loop for one language: `k` is the
index of the next request, `n` the remaining attempts.  A 200 response is
accepted only when some description is non-empty; a 401 returns
immediately; anything else consumes the attempt.  Returns the outcome and
the next request index. -/
def tryLang (env : Nat → Resp) (k : Nat) : Nat → FetchOutcome × Nat
  | 0 => (.exhausted, k)
  | n + 1 =>
    match env k with
    | .ok (some achs) =>
      if hasDesc achs then (.accepted (unlockedOf achs), k + 1)
      else tryLang env (k + 1) n
    | .ok none => tryLang env (k + 1) n
    | .denied => (.denied, k + 1)
    | .httpErr => tryLang env (k + 1) n
    | .exn => tryLang env (k + 1) n

/-- The outer `for lang in lang_list` loop: each language gets up to 3
attempts; `exhausted` from one language falls through to the next. -/
def tryLangs (env : Nat → Resp) (k : Nat) : List String → FetchOutcome × Nat
  | [] => (.exhausted, k)
  | _ :: rest =>
    match tryLang env k 3 with
    | (.exhausted, k2) => tryLangs env k2 rest
    | (.accepted s, k2) => (.accepted s, k2)
    | (.denied, k2) => (.denied, k2)

/-- A schema-endpoint achievement detail record before the percent merge. -/
structure SchemaDet where
  name : String
  description : String
  icon : Option String
  icon_gray : Option String
deriving DecidableEq

/-- One value of the `details` mapping: `{name, description, icon,
icon_gray, percent}`. -/
structure Detail where
  name : String
  description : String
  icon : Option String
  icon_gray : Option String
  percent : Option Rat
deriving DecidableEq

/-- The `details` mapping (a Python dict in insertion order). -/
abbrev DMap : Type := List (String × Detail)

/-- The in-memory state of one `AchievementMonitor` object together with
the contents of its two durable JSON files.  `achievement_blacklist` and
`initial_achievements` mirror the attributes of the same names;
`blacklist_file` and `achievements_file` model the contents of
`achievement_blacklist.json` and `achievements_cache.json`;
`details_cache` is the volatile `(group_id, appid) -> details` cache. -/
structure MonitorState where
  achievement_blacklist : Finset String
  blacklist_file : Finset String
  initial_achievements : String → Option (Finset String)
  achievements_file : String → Option (Finset String)
  details_cache : String × Nat → Option DMap

/-- `get_player_achievements(api_key, group_id, steamid, appid)`: returns
the fetched unlocked set (`none` = Python `None`), the successor state,
and the number of HTTP requests issued.  Blacklisted appids short-circuit
with zero requests; exhaustion of every language and attempt adds
`str(appid)` to the blacklist and flushes it to its file. -/
def get_player_achievements (st : MonitorState) (env : Nat → Resp)
    (api_key group_id steamid : String) (appid : Nat) :
    Option (Finset String) × MonitorState × Nat :=
  if toString appid ∈ st.achievement_blacklist then (none, st, 0)
  else
    match tryLangs env 0 lang_list with
    | (.accepted s, k) => (some s, st, k)
    | (.denied, k) => (none, st, k)
    | (.exhausted, k) =>
      let bl := insert (toString appid) st.achievement_blacklist
      (none, { st with achievement_blacklist := bl, blacklist_file := bl }, k)

/-- The single-quote character, written via its code point. -/
def squote : String := String.mk [Char.ofNat 39]

/-- Python `repr` of a quote-free string (ids here are plain alphanumerics). -/
def pyRepr (s : String) : String := squote ++ s ++ squote

/-- `str((group_id, steamid, appid))` for an `int` appid, as built by
`check_new_achievements`. -/
def strKeyInt (group_id steamid : String) (appid : Nat) : String :=
  "(" ++ pyRepr group_id ++ ", " ++ pyRepr steamid ++ ", " ++ toString appid ++ ")"

/-- `str((group_id, steamid, appid))` for a `str` appid, as built by
`clear_game_achievements`. -/
def strKeyStr (group_id steamid appid : String) : String :=
  "(" ++ pyRepr group_id ++ ", " ++ pyRepr steamid ++ ", " ++ pyRepr appid ++ ")"

/-- `check_new_achievements(api_key, group_id, steamid, appid, player_name,
game_name)`: fetch, diff against the stored baseline (`set()` when the key
is absent), commit the fetched set under `str(key)` and rewrite the
durable file; a `None` fetch returns the empty set without touching the
table. -/
def check_new_achievements (st : MonitorState) (env : Nat → Resp)
    (api_key group_id steamid : String) (appid : Nat)
    (player_name game_name : String) : Finset String × MonitorState × Nat :=
  match get_player_achievements st env api_key group_id steamid appid with
  | (none, st2, n) => (∅, st2, n)
  | (some current, st2, n) =>
    let key := strKeyInt group_id steamid appid
    let initial := (st2.initial_achievements key).getD ∅
    let news := current \ initial
    let store := Function.update st2.initial_achievements key (some current)
    (news, { st2 with initial_achievements := store, achievements_file := store }, n)

/-- `clear_game_achievements(group_id, steamid, appid)` — `appid` is a
`str` here; the entry is deleted (and the file rewritten) only when
`str(key)` is present. -/
def clear_game_achievements (st : MonitorState) (group_id steamid appid : String) :
    MonitorState :=
  let key := strKeyStr group_id steamid appid
  if (st.initial_achievements key).isSome then
    let store := Function.update st.initial_achievements key none
    { st with initial_achievements := store, achievements_file := store }
  else st

/-- Python-dict lookup on an insertion-ordered association list. -/
def dictGet {α : Type} (m : List (String × α)) (k : String) : Option α :=
  (m.find? (fun p => p.1 == k)).map (fun p => p.2)

/-- Python-dict assignment `m[k] = v`: replace in place when the key
exists, append otherwise. -/
def dictInsert {α : Type} (m : List (String × α)) (k : String) (v : α) :
    List (String × α) :=
  if m.any (fun p => p.1 == k) then
    m.map (fun p => if p.1 == k then (k, v) else p)
  else m ++ [(k, v)]

/-- One achievement entry of the schema payload
(`schema["game"]["availableGameStats"]["achievements"]`). -/
structure SchemaAch where
  name : String
  displayName : Option String
  description : String
  icon : Option String
  icongray : Option String
deriving DecidableEq

/-- Response to one `GetSchemaForGame` request.  `ok none` models a 200
payload lacking `game`/`availableGameStats`; `parseFail` a 200 whose
`resp.json()` raises (caught locally, `continue`); `badRequest` HTTP 400
(degradation trigger); `otherErr` any other status; `exn` a raised request
exception, caught by the outer handler (next language). -/
inductive SchemaResp where
  | ok (achs : Option (List SchemaAch))
  | parseFail
  | badRequest
  | otherErr
  | exn
deriving DecidableEq

/-- Response to one degraded `GetPlayerAchievements` request inside
`get_achievement_details`.  `parseFail` is the locally-caught
`resp2.json()` failure; `exn` a raised request exception that escapes to
the outer handler. -/
inductive PlayerResp where
  | ok (payload : Option (List AchEntry))
  | parseFail
  | err
  | exn
deriving DecidableEq

/-- Response to one `GetGlobalAchievementPercentagesForApp` request.
`ok none` models a 200 payload lacking
`achievementpercentages`/`achievements`; `parseFail` a 200 whose
`resp2.json()` raises (locally caught, `stats = {}`); `err` any non-200
status; `exn` a raised request exception escaping to the outer handler. -/
inductive PercentResp where
  | ok (payload : Option (List (String × Option Rat)))
  | parseFail
  | err
  | exn
deriving DecidableEq

/-- `to_icon_url` of `get_achievement_details`: `None`/empty stays `None`,
absolute URLs pass through, bare asset names get the CDN template. -/
def to_icon_url (appid : Nat) (val : Option String) : Option String :=
  match val with
  | none => none
  | some v =>
    if v = "" then none
    else if v.startsWith "http://" || v.startsWith "https://" then some v
    else some ("https://cdn.akamai.steamstatic.com/steamcommunity/public/images/apps/"
      ++ toString appid ++ "/" ++ v ++ ".jpg")

/-- The `achievements` dict built from one schema payload:
`achievements[ach["name"]] = {name: displayName|name, description, icon,
icon_gray}` with icon normalization. -/
def schemaDict (appid : Nat) (achs : List SchemaAch) : List (String × SchemaDet) :=
  achs.foldl (fun d a =>
    dictInsert d a.name
      { name := a.displayName.getD a.name,
        description := a.description,
        icon := to_icon_url appid a.icon,
        icon_gray := to_icon_url appid a.icongray }) []

/-- The `percents` dict: `percents[ach["name"]] = ach.get("percent")`. -/
def percentDict (ps : List (String × Option Rat)) : List (String × Option Rat) :=
  ps.foldl (fun d p => dictInsert d p.1 p.2) []

/-- The `percents` dict produced from one non-raising percentages
response: empty on non-200, parse failure, or missing keys. -/
def percOf : PercentResp → List (String × Option Rat)
  | .ok (some ps) => percentDict ps
  | _ => []

/-- The final merge loop of the primary path: `details[apiname] = {...,
percent: percents.get(apiname)}` for every entry of the `achievements`
dict, written over the accumulated `details`. -/
def mergePercents (d0 : DMap) (achievements : List (String × SchemaDet))
    (percents : List (String × Option Rat)) : DMap :=
  achievements.foldl (fun d p =>
    dictInsert d p.1
      { name := p.2.name,
        description := p.2.description,
        icon := p.2.icon,
        icon_gray := p.2.icon_gray,
        percent := (dictGet percents p.1).join }) d0

/-- One detail record built by the degraded path from a per-player entry:
name and description only, no icon, no percent. -/
def degradedDetail (a : AchEntry) : Detail :=
  { name := a.name.getD a.apiname,
    description := a.description,
    icon := none,
    icon_gray := none,
    percent := none }

/-- The degraded `for lang2 in lang_list` loop: one per-player request per
language, accumulating into `details`; stops after the first payload with
a non-empty description.  Returns the accumulated dict, the next player
request index, and whether a raised exception escaped to the outer
handler. -/
def degradedLoop (penv : Nat → PlayerResp) (pk : Nat) (details : DMap) :
    List String → DMap × Nat × Bool
  | [] => (details, pk, false)
  | _ :: rest =>
    match penv pk with
    | .ok (some achs) =>
      let d2 := achs.foldl (fun d a => dictInsert d a.apiname (degradedDetail a)) details
      if hasDesc achs then (d2, pk + 1, false)
      else degradedLoop penv (pk + 1) d2 rest
    | .ok none => degradedLoop penv (pk + 1) details rest
    | .parseFail => degradedLoop penv (pk + 1) details rest
    | .err => degradedLoop penv (pk + 1) details rest
    | .exn => (details, pk + 1, true)

/-- How one call of `get_achievement_details` ends: `ret` is an early
`return` (degraded path, or missing credentials) that skips the cache
write; `fin` is the normal end of the language loop (break or
exhaustion), after which the result is cached. -/
inductive DOutcome where
  | ret (d : DMap)
  | fin (d : DMap)
deriving DecidableEq

/-- Whether the call fell through to the cache write. -/
def DOutcome.isFin : DOutcome → Bool
  | .ret _ => false
  | .fin _ => true

/-- The `for try_lang in lang_list` loop of `get_achievement_details`.
`sk`, `pk`, `ck` count schema, degraded-player, and percentages requests
already issued; `details` is the dict accumulated across languages.  A
schema 400 triggers the degraded path (empty `return` without
credentials); a schema 200 merges percentages best-effort unless the
percentages request raises, in which case the outer handler discards this
language's work and moves on. -/
def detailsLoop (senv : Nat → SchemaResp) (penv : Nat → PlayerResp)
    (cenv : Nat → PercentResp) (langsAll : List String)
    (api_key steamid : String) (appid : Nat)
    (sk pk ck : Nat) (details : DMap) :
    List String → DOutcome × Nat × Nat × Nat
  | [] => (.fin details, sk, pk, ck)
  | _ :: rest =>
    match senv sk with
    | .exn =>
      detailsLoop senv penv cenv langsAll api_key steamid appid
        (sk + 1) pk ck details rest
    | .otherErr =>
      detailsLoop senv penv cenv langsAll api_key steamid appid
        (sk + 1) pk ck details rest
    | .parseFail =>
      detailsLoop senv penv cenv langsAll api_key steamid appid
        (sk + 1) pk ck details rest
    | .badRequest =>
      if api_key = "" ∨ steamid = "" then (.ret [], sk + 1, pk, ck)
      else
        match degradedLoop penv pk details langsAll with
        | (d2, pk2, true) =>
          detailsLoop senv penv cenv langsAll api_key steamid appid
            (sk + 1) pk2 ck d2 rest
        | (d2, pk2, false) => (.ret d2, sk + 1, pk2, ck)
    | .ok achsOpt =>
      let achievements := match achsOpt with
        | none => []
        | some l => schemaDict appid l
      match cenv ck with
      | .exn =>
        detailsLoop senv penv cenv langsAll api_key steamid appid
          (sk + 1) pk (ck + 1) details rest
      | cr =>
        let d2 := mergePercents details achievements (percOf cr)
        if achievements.any (fun p => p.2.description != "") then
          (.fin d2, sk + 1, pk, ck + 1)
        else
          detailsLoop senv penv cenv langsAll api_key steamid appid
            (sk + 1) pk (ck + 1) d2 rest

/-- `get_achievement_details(group_id, appid, lang, api_key, steamid)`:
returns the details mapping, the successor state, and the total number of
HTTP requests issued.  The blacklist is checked before the cache; the
result of a run that falls through the language loop is written to the
cache, while early degraded-path returns are not. -/
def get_achievement_details (st : MonitorState) (senv : Nat → SchemaResp)
    (penv : Nat → PlayerResp) (cenv : Nat → PercentResp)
    (group_id : String) (appid : Nat) (lang api_key steamid : String) :
    DMap × MonitorState × Nat :=
  if toString appid ∈ st.achievement_blacklist then ([], st, 0)
  else
    match st.details_cache (group_id, appid) with
    | some d => (d, st, 0)
    | none =>
      let langs := [lang, "schinese", "english", "en"]
      match detailsLoop senv penv cenv langs api_key steamid appid 0 0 0 [] langs with
      | (.ret d, sk, pk, ck) => (d, st, sk + pk + ck)
      | (.fin d, sk, pk, ck) =>
        (d, { st with details_cache :=
                Function.update st.details_cache (group_id, appid) (some d) },
         sk + pk + ck)

/-- A response counting as a failed attempt of the fetch loop: anything
that is neither a 401 nor an accepted 200 (one with some non-empty
description).  Timeouts and other raised exceptions are `Resp.exn`. -/
def respFails : Resp → Bool
  | .ok (some achs) => !(hasDesc achs)
  | .ok none => true
  | .denied => false
  | .httpErr => true
  | .exn => true

/-- A cold-start monitor: empty blacklist, empty unlock-state table, empty
details cache, empty durable files. -/
def stEmpty : MonitorState :=
  { achievement_blacklist := ∅, blacklist_file := ∅,
    initial_achievements := fun _ => none,
    achievements_file := fun _ => none,
    details_cache := fun _ => none }

/-- A monitor whose table stores the baseline `{"a", "b"}` for the
identity `("g", "s", 1)`. -/
def stA : MonitorState :=
  { stEmpty with
    initial_achievements := fun k =>
      if k = strKeyInt "g" "s" 1 then some {"a", "b"} else none,
    achievements_file := fun k =>
      if k = strKeyInt "g" "s" 1 then some {"a", "b"} else none }

/-- A monitor with appid 5 blacklisted and a details-cache entry for
`("g", 5)`, to exercise the blacklist-before-cache order. -/
def stBL : MonitorState :=
  { stEmpty with
    achievement_blacklist := {"5"},
    blacklist_file := {"5"},
    details_cache := fun p =>
      if p = ("g", 5) then
        some [("x", { name := "X", description := "dx", icon := none,
                      icon_gray := none, percent := none })]
      else none }

/-- Every player-achievements request answers 200 with the single
unlocked achievement `"a"` (non-empty description). -/
def envSmall : Nat → Resp := fun _ => Resp.ok (some [⟨"a", none, 1, "d"⟩])

/-- Every player-achievements request answers 200 with unlocked
achievements `"a"`, `"b"`, `"c"` (non-empty descriptions). -/
def envBig : Nat → Resp := fun _ =>
  Resp.ok (some [⟨"a", none, 1, "d"⟩, ⟨"b", none, 1, "d"⟩, ⟨"c", none, 1, "d"⟩])

/-- Requests 0 and 1 fail with a bad status; request 2 is a 401. -/
def envDenied2 : Nat → Resp := fun i => if i < 2 then Resp.httpErr else Resp.denied

/-- Every player-achievements request times out. -/
def envExn : Nat → Resp := fun _ => Resp.exn

/-- Every schema request answers HTTP 400. -/
def senvBad : Nat → SchemaResp := fun _ => SchemaResp.badRequest

/-- Every schema request answers 200 with one achievement `"A"` carrying a
non-empty description. -/
def senvOk : Nat → SchemaResp := fun _ =>
  SchemaResp.ok (some [⟨"A", none, "d", none, none⟩])

/-- Every degraded per-player request answers 200 with one achievement
`"apiA"` (display name `"NameA"`, non-empty description). -/
def penvOk : Nat → PlayerResp := fun _ =>
  PlayerResp.ok (some [⟨"apiA", some "NameA", 1, "descA"⟩])

/-- Every percentages request fails with a non-200 status. -/
def cenvErr : Nat → PercentResp := fun _ => PercentResp.err

/-- Every percentages request raises (network error). -/
def cenvExn : Nat → PercentResp := fun _ => PercentResp.exn

/-- Every percentages request answers 200 with percent 50 for `"A"`. -/
def cenvOk : Nat → PercentResp := fun _ =>
  PercentResp.ok (some [("A", some (50 : Rat))])

theorem get_player_achievements_preserves (st : MonitorState) (env : Nat → Resp)
    (api_key group_id steamid : String) (appid : Nat) :
    (get_player_achievements st env api_key group_id steamid appid).2.1.initial_achievements
        = st.initial_achievements ∧
    (get_player_achievements st env api_key group_id steamid appid).2.1.achievements_file
        = st.achievements_file ∧
    (get_player_achievements st env api_key group_id steamid appid).2.1.details_cache
        = st.details_cache := by
  unfold get_player_achievements
  split
  · exact ⟨rfl, rfl, rfl⟩
  · split <;> exact ⟨rfl, rfl, rfl⟩

theorem check_new_spec (st : MonitorState) (env : Nat → Resp)
    (api_key group_id steamid : String) (appid : Nat)
    (player_name game_name : String) (S : Finset String) (st2 : MonitorState) (n : Nat)
    (hr : get_player_achievements st env api_key group_id steamid appid = (some S, st2, n)) :
    check_new_achievements st env api_key group_id steamid appid player_name game_name =
      (S \ (st2.initial_achievements (strKeyInt group_id steamid appid)).getD ∅,
       { st2 with
         initial_achievements :=
           Function.update st2.initial_achievements
             (strKeyInt group_id steamid appid) (some S),
         achievements_file :=
           Function.update st2.initial_achievements
             (strKeyInt group_id steamid appid) (some S) },
       n) := by
  unfold check_new_achievements
  rw [hr]

theorem check_new_stores (st : MonitorState) (env : Nat → Resp)
    (api_key group_id steamid : String) (appid : Nat)
    (player_name game_name : String) (S : Finset String)
    (hf : (get_player_achievements st env api_key group_id steamid appid).1 = some S) :
    (check_new_achievements st env api_key group_id steamid appid
        player_name game_name).2.1.initial_achievements
      (strKeyInt group_id steamid appid) = some S ∧
    (check_new_achievements st env api_key group_id steamid appid
        player_name game_name).2.1.achievements_file
      (strKeyInt group_id steamid appid) = some S := by
  rcases hr : get_player_achievements st env api_key group_id steamid appid with ⟨r, st2, n⟩
  rw [hr] at hf
  simp only at hf
  subst hf
  rw [check_new_spec st env api_key group_id steamid appid player_name game_name S st2 n hr]
  constructor <;> exact Function.update_same _ _ _

theorem tryLang_fail (env : Nat → Resp) (n : Nat) :
    ∀ k, (∀ i, k ≤ i → i < k + n → respFails (env i) = true) →
      tryLang env k n = (.exhausted, k + n) := by
  induction n with
  | zero => intro k h; simp [tryLang]
  | succ n ih =>
    intro k h
    have hk : respFails (env k) = true := h k (Nat.le_refl k) (by omega)
    have ih2 := ih (k + 1) (fun i h1 h2 => h i (by omega) (by omega))
    rw [show k + (n + 1) = (k + 1) + n from by omega]
    unfold tryLang
    cases he : env k with
    | ok payload =>
      cases payload with
      | some achs =>
        rw [he] at hk
        simp only [respFails, Bool.not_eq_true'] at hk
        simp [hk, ih2]
      | none => simp [ih2]
    | denied => rw [he] at hk; simp [respFails] at hk
    | httpErr => simp [ih2]
    | exn => simp [ih2]

theorem tryLangs_fail (env : Nat → Resp) (L : List String) :
    ∀ k, (∀ i, k ≤ i → i < k + 3 * L.length → respFails (env i) = true) →
      tryLangs env k L = (.exhausted, k + 3 * L.length) := by
  induction L with
  | nil => intro k h; simp [tryLangs]
  | cons a rest ih =>
    intro k h
    have h1 : tryLang env k 3 = (.exhausted, k + 3) :=
      tryLang_fail env 3 k (fun i hi1 hi2 =>
        h i hi1 (by simp only [List.length_cons]; omega))
    have h2 := ih (k + 3) (fun i hi1 hi2 =>
      h i (by omega) (by simp only [List.length_cons]; omega))
    rw [show k + 3 * (a :: rest).length = (k + 3) + 3 * rest.length from by
      simp only [List.length_cons]; omega]
    unfold tryLangs
    rw [h1]
    exact h2

theorem tryLang_denied (env : Nat → Resp) (n : Nat) :
    ∀ j kd, j ≤ kd → kd < j + n →
      (∀ i, j ≤ i → i < kd → respFails (env i) = true) →
      env kd = Resp.denied →
      tryLang env j n = (.denied, kd + 1) := by
  induction n with
  | zero => intro j kd h1 h2 h3 h4; omega
  | succ n ih =>
    intro j kd h1 h2 h3 h4
    by_cases hj : j = kd
    · subst hj
      unfold tryLang
      rw [h4]
    · have hjlt : j < kd := by omega
      have hf : respFails (env j) = true := h3 j (Nat.le_refl j) hjlt
      have ih2 := ih (j + 1) kd (by omega) (by omega)
        (fun i hi1 hi2 => h3 i (by omega) hi2) h4
      unfold tryLang
      cases he : env j with
      | ok payload =>
        cases payload with
        | some achs =>
          rw [he] at hf
          simp only [respFails, Bool.not_eq_true'] at hf
          simp [hf, ih2]
        | none => simp [ih2]
      | denied => rw [he] at hf; simp [respFails] at hf
      | httpErr => simp [ih2]
      | exn => simp [ih2]

theorem tryLangs_denied (env : Nat → Resp) (L : List String) :
    ∀ j kd, j ≤ kd → kd < j + 3 * L.length →
      (∀ i, j ≤ i → i < kd → respFails (env i) = true) →
      env kd = Resp.denied →
      tryLangs env j L = (.denied, kd + 1) := by
  induction L with
  | nil => intro j kd h1 h2 h3 h4; simp only [List.length_nil] at h2; omega
  | cons a rest ih =>
    intro j kd h1 h2 h3 h4
    by_cases hkd : kd < j + 3
    · have hl := tryLang_denied env 3 j kd h1 hkd h3 h4
      unfold tryLangs
      rw [hl]
    · have hge : j + 3 ≤ kd := by omega
      have hfail3 : tryLang env j 3 = (.exhausted, j + 3) :=
        tryLang_fail env 3 j (fun i hi1 hi2 => h3 i hi1 (by omega))
      have ih2 := ih (j + 3) kd (by omega)
        (by simp only [List.length_cons] at h2; omega)
        (fun i hi1 hi2 => h3 i (by omega) hi2) h4
      unfold tryLangs
      rw [hfail3]
      exact ih2

theorem strKeyInt_ne_strKeyStr (group_id steamid : String) (appid : Nat) :
    strKeyInt group_id steamid appid ≠ strKeyStr group_id steamid (toString appid) := by
  intro h
  have h2 := congrArg String.length h
  simp only [strKeyInt, strKeyStr, pyRepr, String.length_append] at h2
  have hs : squote.length = 1 := rfl
  omega

theorem dictGet_nil {α : Type} (k : String) : dictGet ([] : List (String × α)) k = none := rfl

theorem mem_dictInsert {α : Type} {m : List (String × α)} {k : String} {v : α}
    {p : String × α} (hp : p ∈ dictInsert m k v) : p ∈ m ∨ p = (k, v) := by
  unfold dictInsert at hp
  split at hp
  · rcases List.mem_map.mp hp with ⟨q, hq, hqe⟩
    by_cases hqk : q.1 == k
    · right; rw [if_pos hqk] at hqe; exact hqe.symm
    · left; rw [if_neg hqk] at hqe; rw [← hqe]; exact hq
  · rcases List.mem_append.mp hp with h | h
    · exact Or.inl h
    · exact Or.inr (List.mem_singleton.mp h)

theorem mergePercents_cons (d0 : DMap) (a : String × SchemaDet)
    (rest : List (String × SchemaDet)) (ps : List (String × Option Rat)) :
    mergePercents d0 (a :: rest) ps =
      mergePercents
        (dictInsert d0 a.1
          { name := a.2.name, description := a.2.description, icon := a.2.icon,
            icon_gray := a.2.icon_gray, percent := (dictGet ps a.1).join })
        rest ps := rfl

theorem mergePercents_percent_none (sd : List (String × SchemaDet)) :
    ∀ d0 : DMap, (∀ p ∈ d0, p.2.percent = none) →
      ∀ p ∈ mergePercents d0 sd [], p.2.percent = none := by
  induction sd with
  | nil => intro d0 h p hp; exact h p hp
  | cons a rest ih =>
    intro d0 h p hp
    rw [mergePercents_cons] at hp
    refine ih _ ?_ p hp
    intro q hq
    rcases mem_dictInsert hq with hq2 | hq2
    · exact h q hq2
    · rw [hq2]
      simp [dictGet_nil]

theorem check_new_preserves_other (st : MonitorState) (env : Nat → Resp)
    (api_key group_id steamid : String) (appid : Nat)
    (player_name game_name : String) (S : Finset String) (k2 : String)
    (hf : (get_player_achievements st env api_key group_id steamid appid).1 = some S)
    (hk : k2 ≠ strKeyInt group_id steamid appid) :
    (check_new_achievements st env api_key group_id steamid appid
        player_name game_name).2.1.initial_achievements k2 =
      st.initial_achievements k2 := by
  have hp := get_player_achievements_preserves st env api_key group_id steamid appid
  rcases hr : get_player_achievements st env api_key group_id steamid appid with ⟨r, st2, n⟩
  rw [hr] at hf hp
  simp only at hf hp
  subst hf
  rw [check_new_spec st env api_key group_id steamid appid player_name game_name S st2 n hr]
  show Function.update st2.initial_achievements
      (strKeyInt group_id steamid appid) (some S) k2 = st.initial_achievements k2
  rw [Function.update_noteq hk, hp.1]

theorem clear_noop (st : MonitorState) (group_id steamid appid : String)
    (h : st.initial_achievements (strKeyStr group_id steamid appid) = none) :
    clear_game_achievements st group_id steamid appid = st := by
  simp [clear_game_achievements, h]

theorem check_new_empty_of_stored (st : MonitorState) (env : Nat → Resp)
    (api_key group_id steamid : String) (appid : Nat)
    (player_name game_name : String) (S : Finset String)
    (hstored : st.initial_achievements (strKeyInt group_id steamid appid) = some S)
    (hf : (get_player_achievements st env api_key group_id steamid appid).1 = some S) :
    (check_new_achievements st env api_key group_id steamid appid
        player_name game_name).1 = ∅ := by
  have hp := get_player_achievements_preserves st env api_key group_id steamid appid
  rcases hr : get_player_achievements st env api_key group_id steamid appid with ⟨r, st2, n⟩
  rw [hr] at hf hp
  simp only at hf hp
  subst hf
  rw [check_new_spec st env api_key group_id steamid appid player_name game_name S st2 n hr]
  show S \ (st2.initial_achievements (strKeyInt group_id steamid appid)).getD ∅ = ∅
  rw [hp.1, hstored]
  simp

theorem details_cache_hit (st : MonitorState) (senv : Nat → SchemaResp)
    (penv : Nat → PlayerResp) (cenv : Nat → PercentResp)
    (group_id : String) (appid : Nat) (lang api_key steamid : String) (d : DMap)
    (hb : toString appid ∉ st.achievement_blacklist)
    (hc : st.details_cache (group_id, appid) = some d) :
    get_achievement_details st senv penv cenv group_id appid lang api_key steamid =
      (d, st, 0) := by
  unfold get_achievement_details
  rw [if_neg hb, hc]

/-- C3: once an appId is blacklisted, every `get_player_achievements` call
for it returns `None` and every `get_achievement_details` call returns the
empty mapping, in both cases with zero network requests and an unchanged
state; the blacklist check precedes all other work, including the
details-cache lookup (the conclusion holds for every state, in particular
one whose cache holds an entry for the key). -/
theorem blacklist_short_circuit (st : MonitorState) (env : Nat → Resp)
    (api_key group_id steamid : String) (appid : Nat)
    (senv : Nat → SchemaResp) (penv : Nat → PlayerResp) (cenv : Nat → PercentResp)
    (group_id2 lang api_key2 steamid2 : String)
    (h : toString appid ∈ st.achievement_blacklist) :
    get_player_achievements st env api_key group_id steamid appid = (none, st, 0) ∧
    get_achievement_details st senv penv cenv group_id2 appid lang api_key2 steamid2 =
      ([], st, 0) := by
  constructor
  · unfold get_player_achievements
    rw [if_pos h]
  · unfold get_achievement_details
    rw [if_pos h]

theorem blacklist_short_circuit_wit :
    toString 5 ∈ stBL.achievement_blacklist ∧
    stBL.details_cache ("g", 5) ≠ none ∧
    (get_player_achievements stBL envSmall "k" "g" "s" 5 = (none, stBL, 0) ∧
     get_achievement_details stBL senvOk penvOk cenvOk "g" 5 "schinese" "k" "s" =
       ([], stBL, 0)) :=
  ⟨by decide, by decide,
   blacklist_short_circuit stBL envSmall "k" "g" "s" 5 senvOk penvOk cenvOk
     "g" "schinese" "k" "s" (by decide)⟩

/-- C5: if appId is not blacklisted and all nine responses (3 languages ×
3 attempts) are failures — timeouts/exceptions, bad statuses, payloads
without the expected keys, or 200s with no non-empty description — then
`get_player_achievements` adds `str(appid)` to the blacklist, flushes it
to the durable blacklist file, and returns `None` after exactly 9
requests. -/
theorem fetch_exhaustion_blacklists (st : MonitorState) (env : Nat → Resp)
    (api_key group_id steamid : String) (appid : Nat)
    (hb : toString appid ∉ st.achievement_blacklist)
    (hfail : ∀ i, i < 9 → respFails (env i) = true) :
    get_player_achievements st env api_key group_id steamid appid =
      (none,
       { st with
         achievement_blacklist := insert (toString appid) st.achievement_blacklist,
         blacklist_file := insert (toString appid) st.achievement_blacklist },
       9) := by
  have h9 : tryLangs env 0 lang_list = (.exhausted, 9) := by
    have h := tryLangs_fail env lang_list 0
      (fun i h1 h2 => hfail i (by simpa [lang_list] using h2))
    simpa [lang_list] using h
  unfold get_player_achievements
  rw [if_neg hb, h9]

theorem fetch_exhaustion_blacklists_wit :
    toString 7 ∉ stEmpty.achievement_blacklist ∧
    get_player_achievements stEmpty envExn "k" "g" "s" 7 =
      (none,
       { stEmpty with
         achievement_blacklist := insert (toString 7) stEmpty.achievement_blacklist,
         blacklist_file := insert (toString 7) stEmpty.achievement_blacklist },
       9) :=
  ⟨by decide,
   fetch_exhaustion_blacklists stEmpty envExn "k" "g" "s" 7 (by decide)
     (fun i hi => rfl)⟩

/-- C6: a 401 response at request position `kd` (all earlier responses
being ordinary failures) makes `get_player_achievements` return `None`
immediately after `kd + 1` requests, with the state — in particular the
blacklist and its file — completely unchanged. -/
theorem fetch_denied_immediate (st : MonitorState) (env : Nat → Resp)
    (api_key group_id steamid : String) (appid : Nat) (kd : Nat)
    (hb : toString appid ∉ st.achievement_blacklist)
    (hkd : kd < 9)
    (hfail : ∀ i, i < kd → respFails (env i) = true)
    (hden : env kd = Resp.denied) :
    get_player_achievements st env api_key group_id steamid appid =
      (none, st, kd + 1) := by
  have hd : tryLangs env 0 lang_list = (.denied, kd + 1) :=
    tryLangs_denied env lang_list 0 kd (Nat.zero_le kd)
      (by simp only [lang_list, List.length_cons, List.length_nil]; omega)
      (fun i h1 h2 => hfail i h2) hden
  unfold get_player_achievements
  rw [if_neg hb, hd]

theorem fetch_denied_immediate_wit :
    toString 9 ∉ stEmpty.achievement_blacklist ∧
    (2 : Nat) < 9 ∧
    envDenied2 2 = Resp.denied ∧
    get_player_achievements stEmpty envDenied2 "k" "g" "s" 9 = (none, stEmpty, 2 + 1) :=
  ⟨by decide, by decide, by decide,
   fetch_denied_immediate stEmpty envDenied2 "k" "g" "s" 9 2 (by decide) (by decide)
     (by decide) (by decide)⟩

/-- C7: if the fetch step returns `None`, `check_new_achievements` returns
the empty set and the whole unlock-state table (hence the baseline of
every identity) and its durable file are unchanged. -/
theorem fetch_unknown_preserves_baseline (st : MonitorState) (env : Nat → Resp)
    (api_key group_id steamid : String) (appid : Nat)
    (player_name game_name : String)
    (h : (get_player_achievements st env api_key group_id steamid appid).1 = none) :
    (check_new_achievements st env api_key group_id steamid appid
        player_name game_name).1 = ∅ ∧
    (check_new_achievements st env api_key group_id steamid appid
        player_name game_name).2.1.initial_achievements = st.initial_achievements ∧
    (check_new_achievements st env api_key group_id steamid appid
        player_name game_name).2.1.achievements_file = st.achievements_file := by
  have hp := get_player_achievements_preserves st env api_key group_id steamid appid
  rcases hr : get_player_achievements st env api_key group_id steamid appid with ⟨r, st2, n⟩
  rw [hr] at h hp
  simp only at h hp
  subst h
  unfold check_new_achievements
  rw [hr]
  exact ⟨rfl, hp.1, hp.2.1⟩

theorem fetch_unknown_preserves_baseline_wit :
    (get_player_achievements stA envExn "k" "g" "s" 1).1 = none ∧
    ((check_new_achievements stA envExn "k" "g" "s" 1 "p" "gm").1 = ∅ ∧
     (check_new_achievements stA envExn "k" "g" "s" 1 "p" "gm").2.1.initial_achievements =
       stA.initial_achievements ∧
     (check_new_achievements stA envExn "k" "g" "s" 1 "p" "gm").2.1.achievements_file =
       stA.achievements_file) :=
  ⟨by decide,
   fetch_unknown_preserves_baseline stA envExn "k" "g" "s" 1 "p" "gm" (by decide)⟩

/-- C1 (counterexample): with stored baseline `{"a","b"}` for identity
`("g","s",1)`, a completed reconciliation whose fetch returns `{"a"}`
leaves a stored baseline that is NOT a superset of the previous one — the
commit replaces the baseline instead of growing it, so the claimed
monotonicity fails without any `clear_game_achievements` call. -/
theorem reconcile_shrink_cex :
    (get_player_achievements stA envSmall "k" "g" "s" 1).1 = some {"a"} ∧
    (stA.initial_achievements (strKeyInt "g" "s" 1)).getD ∅ = {"a", "b"} ∧
    ¬ ({"a", "b"} : Finset String) ⊆
      ((check_new_achievements stA envSmall "k" "g" "s" 1 "p" "gm").2.1.initial_achievements
        (strKeyInt "g" "s" 1)).getD ∅ :=
  ⟨by decide, by decide, by decide⟩

/-- C1 (amended): when a reconciliation completes with a fetched set that
contains the previously stored baseline, the new stored baseline is a
superset of the previous one; the monotonicity invariant holds only under
that extra hypothesis, because the commit always replaces the baseline
with the fetched set. -/
theorem reconcile_monotone_of_superset (st : MonitorState) (env : Nat → Resp)
    (api_key group_id steamid : String) (appid : Nat)
    (player_name game_name : String) (S : Finset String)
    (hf : (get_player_achievements st env api_key group_id steamid appid).1 = some S)
    (hmono : (st.initial_achievements (strKeyInt group_id steamid appid)).getD ∅ ⊆ S) :
    (st.initial_achievements (strKeyInt group_id steamid appid)).getD ∅ ⊆
      ((check_new_achievements st env api_key group_id steamid appid
          player_name game_name).2.1.initial_achievements
        (strKeyInt group_id steamid appid)).getD ∅ := by
  rw [(check_new_stores st env api_key group_id steamid appid
    player_name game_name S hf).1]
  simpa using hmono

theorem reconcile_monotone_of_superset_wit :
    (get_player_achievements stA envBig "k" "g" "s" 1).1 = some {"a", "b", "c"} ∧
    (stA.initial_achievements (strKeyInt "g" "s" 1)).getD ∅ ⊆ {"a", "b", "c"} ∧
    (stA.initial_achievements (strKeyInt "g" "s" 1)).getD ∅ ⊆
      ((check_new_achievements stA envBig "k" "g" "s" 1 "p" "gm").2.1.initial_achievements
        (strKeyInt "g" "s" 1)).getD ∅ :=
  ⟨by decide, by decide,
   reconcile_monotone_of_superset stA envBig "k" "g" "s" 1 "p" "gm" {"a", "b", "c"}
     (by decide) (by decide)⟩

/-- C2: a reconciliation whose fetch returns `S` returns exactly
`S \ storedBaseline` (the empty set standing in for an absent baseline)
and unconditionally commits `S` as the new stored baseline for that
identity, both in the in-memory table and in the durable file. -/
theorem reconcile_diff_and_commit (st : MonitorState) (env : Nat → Resp)
    (api_key group_id steamid : String) (appid : Nat)
    (player_name game_name : String) (S : Finset String)
    (hf : (get_player_achievements st env api_key group_id steamid appid).1 = some S) :
    (check_new_achievements st env api_key group_id steamid appid
        player_name game_name).1 =
      S \ (st.initial_achievements (strKeyInt group_id steamid appid)).getD ∅ ∧
    (check_new_achievements st env api_key group_id steamid appid
        player_name game_name).2.1.initial_achievements
      (strKeyInt group_id steamid appid) = some S ∧
    (check_new_achievements st env api_key group_id steamid appid
        player_name game_name).2.1.achievements_file
      (strKeyInt group_id steamid appid) = some S := by
  have hp := get_player_achievements_preserves st env api_key group_id steamid appid
  have hs := check_new_stores st env api_key group_id steamid appid
    player_name game_name S hf
  refine ⟨?_, hs.1, hs.2⟩
  rcases hr : get_player_achievements st env api_key group_id steamid appid with ⟨r, st2, n⟩
  rw [hr] at hf hp
  simp only at hf hp
  subst hf
  rw [check_new_spec st env api_key group_id steamid appid player_name game_name S st2 n hr]
  show S \ (st2.initial_achievements (strKeyInt group_id steamid appid)).getD ∅ = _
  rw [hp.1]

theorem reconcile_diff_and_commit_wit :
    (get_player_achievements stA envBig "k" "g" "s" 1).1 = some {"a", "b", "c"} ∧
    (check_new_achievements stA envBig "k" "g" "s" 1 "p" "gm").1 = {"c"} ∧
    ((check_new_achievements stA envBig "k" "g" "s" 1 "p" "gm").1 =
       {"a", "b", "c"} \ (stA.initial_achievements (strKeyInt "g" "s" 1)).getD ∅ ∧
     (check_new_achievements stA envBig "k" "g" "s" 1 "p" "gm").2.1.initial_achievements
       (strKeyInt "g" "s" 1) = some {"a", "b", "c"} ∧
     (check_new_achievements stA envBig "k" "g" "s" 1 "p" "gm").2.1.achievements_file
       (strKeyInt "g" "s" 1) = some {"a", "b", "c"}) :=
  ⟨by decide, by decide,
   reconcile_diff_and_commit stA envBig "k" "g" "s" 1 "p" "gm" {"a", "b", "c"}
     (by decide)⟩

/-- C9: reconciliation is idempotent in its result — if two consecutive
`check_new_achievements` runs both fetch the same set `S`, the second run
returns the empty set of newly unlocked achievements. -/
theorem reconcile_idempotent (st : MonitorState) (env1 env2 : Nat → Resp)
    (api_key group_id steamid : String) (appid : Nat)
    (player_name game_name : String) (S : Finset String)
    (h1 : (get_player_achievements st env1 api_key group_id steamid appid).1 = some S)
    (h2 : (get_player_achievements
        ((check_new_achievements st env1 api_key group_id steamid appid
          player_name game_name).2.1)
        env2 api_key group_id steamid appid).1 = some S) :
    (check_new_achievements
        ((check_new_achievements st env1 api_key group_id steamid appid
          player_name game_name).2.1)
        env2 api_key group_id steamid appid player_name game_name).1 = ∅ :=
  check_new_empty_of_stored _ env2 api_key group_id steamid appid player_name game_name S
    (check_new_stores st env1 api_key group_id steamid appid
      player_name game_name S h1).1 h2

theorem reconcile_idempotent_wit :
    (get_player_achievements stEmpty envSmall "k" "g" "s" 1).1 = some {"a"} ∧
    (get_player_achievements
        ((check_new_achievements stEmpty envSmall "k" "g" "s" 1 "p" "gm").2.1)
        envSmall "k" "g" "s" 1).1 = some {"a"} ∧
    (check_new_achievements
        ((check_new_achievements stEmpty envSmall "k" "g" "s" 1 "p" "gm").2.1)
        envSmall "k" "g" "s" 1 "p" "gm").1 = ∅ :=
  ⟨by decide, by decide,
   reconcile_idempotent stEmpty envSmall envSmall "k" "g" "s" 1 "p" "gm" {"a"}
     (by decide) (by decide)⟩

/-- C10: the unlock-state table is keyed by `str((group_id, steamid,
appid))`, which renders an `int` appid without quotes and a `str` appid
with quotes; the two keys always differ, so after a reconciliation stores
a baseline under the `int` key, `clear_game_achievements` called with
`str(appid)` (as its signature declares) leaves the state — table and
durable file — completely unchanged, provided the `str`-keyed entry was
absent to begin with. -/
theorem clear_string_appid_noop (st : MonitorState) (env : Nat → Resp)
    (api_key group_id steamid : String) (appid : Nat)
    (player_name game_name : String) (S : Finset String)
    (hf : (get_player_achievements st env api_key group_id steamid appid).1 = some S)
    (habs : st.initial_achievements (strKeyStr group_id steamid (toString appid)) = none) :
    strKeyInt group_id steamid appid ≠ strKeyStr group_id steamid (toString appid) ∧
    clear_game_achievements
        ((check_new_achievements st env api_key group_id steamid appid
          player_name game_name).2.1)
        group_id steamid (toString appid) =
      (check_new_achievements st env api_key group_id steamid appid
        player_name game_name).2.1 := by
  refine ⟨strKeyInt_ne_strKeyStr group_id steamid appid, ?_⟩
  refine clear_noop _ group_id steamid (toString appid) ?_
  rw [check_new_preserves_other st env api_key group_id steamid appid
    player_name game_name S _ hf (strKeyInt_ne_strKeyStr group_id steamid appid).symm]
  exact habs

theorem clear_string_appid_noop_wit :
    (get_player_achievements stEmpty envBig "k" "g" "s" 1).1 = some {"a", "b", "c"} ∧
    stEmpty.initial_achievements (strKeyStr "g" "s" (toString 1)) = none ∧
    (strKeyInt "g" "s" 1 ≠ strKeyStr "g" "s" (toString 1) ∧
     clear_game_achievements
         ((check_new_achievements stEmpty envBig "k" "g" "s" 1 "p" "gm").2.1)
         "g" "s" (toString 1) =
       (check_new_achievements stEmpty envBig "k" "g" "s" 1 "p" "gm").2.1) :=
  ⟨by decide, rfl,
   clear_string_appid_noop stEmpty envBig "k" "g" "s" 1 "p" "gm" {"a", "b", "c"}
     (by decide) rfl⟩

/-- C4 (counterexample): a successful degraded resolution (schema answers
400, credentials supplied, the per-player endpoint yields a non-empty
mapping) returns its mapping but leaves the details cache without an
entry for `("g", 7)` — the degraded `return` bypasses the cache write. -/
theorem degraded_not_cached_cex :
    (get_achievement_details stEmpty senvBad penvOk cenvErr "g" 7 "schinese" "k" "sid").1 =
      [("apiA", { name := "NameA", description := "descA", icon := none,
                  icon_gray := none, percent := none })] ∧
    (get_achievement_details stEmpty senvBad penvOk cenvErr
        "g" 7 "schinese" "k" "sid").2.1.details_cache ("g", 7) = none :=
  ⟨by decide, rfl⟩

/-- C4 (amended): a resolution that falls through the language loop — the
primary schema path, whether it succeeds or exhausts all languages — is
stored in the details cache under `(group_id, appid)`, and a subsequent
call with the same key returns the cached mapping with zero requests;
degraded-path resolutions return early and are not cached. -/
theorem primary_resolution_cached (st : MonitorState)
    (senv : Nat → SchemaResp) (penv : Nat → PlayerResp) (cenv : Nat → PercentResp)
    (senv2 : Nat → SchemaResp) (penv2 : Nat → PlayerResp) (cenv2 : Nat → PercentResp)
    (group_id : String) (appid : Nat)
    (lang api_key steamid lang2 api_key2 steamid2 : String)
    (hb : toString appid ∉ st.achievement_blacklist)
    (hc : st.details_cache (group_id, appid) = none)
    (hfin : (detailsLoop senv penv cenv [lang, "schinese", "english", "en"]
        api_key steamid appid 0 0 0 []
        [lang, "schinese", "english", "en"]).1.isFin = true) :
    (get_achievement_details st senv penv cenv group_id appid
        lang api_key steamid).2.1.details_cache (group_id, appid) =
      some (get_achievement_details st senv penv cenv group_id appid
        lang api_key steamid).1 ∧
    get_achievement_details
        (get_achievement_details st senv penv cenv group_id appid
          lang api_key steamid).2.1
        senv2 penv2 cenv2 group_id appid lang2 api_key2 steamid2 =
      ((get_achievement_details st senv penv cenv group_id appid
          lang api_key steamid).1,
       (get_achievement_details st senv penv cenv group_id appid
          lang api_key steamid).2.1,
       0) := by
  rcases hdl : detailsLoop senv penv cenv [lang, "schinese", "english", "en"]
      api_key steamid appid 0 0 0 [] [lang, "schinese", "english", "en"]
    with ⟨o, sk, pk, ck⟩
  rw [hdl] at hfin
  cases o with
  | ret d => simp [DOutcome.isFin] at hfin
  | fin d =>
    have hmain : get_achievement_details st senv penv cenv group_id appid
        lang api_key steamid =
        (d,
         { st with details_cache :=
             Function.update st.details_cache (group_id, appid) (some d) },
         sk + pk + ck) := by
      unfold get_achievement_details
      rw [if_neg hb, hc]
      dsimp only
      rw [hdl]
    have hb2 : toString appid ∉
        ({ st with details_cache :=
            Function.update st.details_cache (group_id, appid) (some d) } :
          MonitorState).achievement_blacklist := hb
    have hc2 : ({ st with details_cache :=
            Function.update st.details_cache (group_id, appid) (some d) } :
          MonitorState).details_cache (group_id, appid) = some d :=
      Function.update_same _ _ _
    rw [hmain]
    exact ⟨Function.update_same _ _ _,
      details_cache_hit _ senv2 penv2 cenv2 group_id appid lang2 api_key2 steamid2
        d hb2 hc2⟩

theorem primary_resolution_cached_wit :
    toString 3 ∉ stEmpty.achievement_blacklist ∧
    stEmpty.details_cache ("g", 3) = none ∧
    (detailsLoop senvOk penvOk cenvOk ["schinese", "schinese", "english", "en"]
        "k" "sid" 3 0 0 0 []
        ["schinese", "schinese", "english", "en"]).1.isFin = true ∧
    ((get_achievement_details stEmpty senvOk penvOk cenvOk "g" 3 "schinese"
        "k" "sid").2.1.details_cache ("g", 3) =
      some (get_achievement_details stEmpty senvOk penvOk cenvOk "g" 3 "schinese"
        "k" "sid").1 ∧
     get_achievement_details
        (get_achievement_details stEmpty senvOk penvOk cenvOk "g" 3 "schinese"
          "k" "sid").2.1
        senvBad penvOk cenvErr "g" 3 "english" "k2" "sid2" =
      ((get_achievement_details stEmpty senvOk penvOk cenvOk "g" 3 "schinese"
          "k" "sid").1,
       (get_achievement_details stEmpty senvOk penvOk cenvOk "g" 3 "schinese"
          "k" "sid").2.1,
       0)) :=
  ⟨by decide, rfl, by decide,
   primary_resolution_cached stEmpty senvOk penvOk cenvOk senvBad penvOk cenvErr
     "g" 3 "schinese" "k" "sid" "english" "k2" "sid2" (by decide) rfl (by decide)⟩

/-- C8 (counterexample): with the schema endpoint succeeding and every
percentages request raising a network error, `get_achievement_details`
returns the empty mapping — the raised exception aborts each language's
work, so a percentages network error does NOT merely null the percent
fields; a non-200 percentages response, by contrast, yields the full
record set with a null percent. -/
theorem percent_exn_drops_records_cex :
    (get_achievement_details stEmpty senvOk penvOk cenvErr
        "g" 3 "schinese" "k" "sid").1 =
      [("A", { name := "A", description := "d", icon := none, icon_gray := none,
               percent := none })] ∧
    (get_achievement_details stEmpty senvOk penvOk cenvExn
        "g" 3 "schinese" "k" "sid").1 = [] :=
  ⟨by decide, by decide⟩

/-- C8 (amended): in the primary path, a percentages response that is a
non-200 status, a malformed payload, or a 200 without the expected keys
only results in null percent fields: the resolution returns exactly the
schema-derived records merged with an empty percents table, every record
carrying `percent = none`. -/
theorem percent_httpfail_nulls_percent (st : MonitorState)
    (senv : Nat → SchemaResp) (penv : Nat → PlayerResp) (cenv : Nat → PercentResp)
    (group_id : String) (appid : Nat) (lang api_key steamid : String)
    (achs : List SchemaAch)
    (hb : toString appid ∉ st.achievement_blacklist)
    (hc : st.details_cache (group_id, appid) = none)
    (hschema : senv 0 = SchemaResp.ok (some achs))
    (hdesc : (schemaDict appid achs).any (fun p => p.2.description != "") = true)
    (hperc : cenv 0 = PercentResp.err ∨ cenv 0 = PercentResp.parseFail ∨
             cenv 0 = PercentResp.ok none) :
    (get_achievement_details st senv penv cenv group_id appid
        lang api_key steamid).1 =
      mergePercents [] (schemaDict appid achs) [] ∧
    ∀ p ∈ (get_achievement_details st senv penv cenv group_id appid
        lang api_key steamid).1, p.2.percent = none := by
  have hloop : detailsLoop senv penv cenv [lang, "schinese", "english", "en"]
      api_key steamid appid 0 0 0 [] [lang, "schinese", "english", "en"] =
      (.fin (mergePercents [] (schemaDict appid achs) []), 1, 0, 1) := by
    unfold detailsLoop
    rw [hschema]
    rcases hperc with h | h | h <;> rw [h] <;> dsimp only <;>
      simp only [percOf, hdesc, if_true]
  have hres : (get_achievement_details st senv penv cenv group_id appid
      lang api_key steamid).1 = mergePercents [] (schemaDict appid achs) [] := by
    unfold get_achievement_details
    rw [if_neg hb, hc]
    dsimp only
    rw [hloop]
  refine ⟨hres, ?_⟩
  rw [hres]
  exact mergePercents_percent_none (schemaDict appid achs) []
    (by intro p hp; simp at hp)

theorem percent_httpfail_nulls_percent_wit :
    toString 3 ∉ stEmpty.achievement_blacklist ∧
    senvOk 0 = SchemaResp.ok (some [⟨"A", none, "d", none, none⟩]) ∧
    cenvErr 0 = PercentResp.err ∧
    ((get_achievement_details stEmpty senvOk penvOk cenvErr
        "g" 3 "schinese" "k" "sid").1 =
      mergePercents [] (schemaDict 3 [⟨"A", none, "d", none, none⟩]) [] ∧
     ∀ p ∈ (get_achievement_details stEmpty senvOk penvOk cenvErr
        "g" 3 "schinese" "k" "sid").1, p.2.percent = none) :=
  ⟨by decide, rfl, rfl,
   percent_httpfail_nulls_percent stEmpty senvOk penvOk cenvErr "g" 3 "schinese"
     "k" "sid" [⟨"A", none, "d", none, none⟩] (by decide) rfl rfl (by decide)
     (Or.inl rfl)⟩
